import Mathlib

/-!
Verification development for the Data-Analyst-Agent-API repository.

The Python sources are shallowly embedded: Python text is modelled as
`List Char` (named `PyStr`), files as `Option PyStr` (`none` = the file is
absent), and the effects of the outside world (subprocess runs, the
temporary-file system calls, LLM responses) as explicit environment values
that each modelled function consumes.  Each definition mirrors one Python
function of the repository, keeping its name where Lean allows it.
-/

/-- Python text is modelled as a list of characters. -/
abbrev PyStr := List Char

/-- Characters removed by Python's `str.strip()` and matched by `\s`
(ASCII fragment): space, tab, newline, carriage return, vertical tab,
form feed. -/
def isPyWS (c : Char) : Bool :=
  c == ' ' || c == '\t' || c == '\n' || c == '\r' || c == '\x0b' || c == '\x0c'

/-- Python `str.lstrip()`. -/
def lstrip (s : PyStr) : PyStr := s.dropWhile isPyWS

/-- Python `str.rstrip()`. -/
def rstrip (s : PyStr) : PyStr := (s.reverse.dropWhile isPyWS).reverse

/-- Python `str.strip()`. -/
def pstrip (s : PyStr) : PyStr := rstrip (lstrip s)

/-- Python `str.lower()` (ASCII fragment). -/
def plower (s : PyStr) : PyStr := s.map Char.toLower

/-- Index of the first occurrence of `pat` as a contiguous substring,
`none` when absent.  This models the scanning done by `str.split`,
`re.search` and `re.findall` on literal patterns. -/
def firstOccur (pat : PyStr) : PyStr → Option Nat
  | [] => if pat.isPrefixOf ([] : PyStr) then some 0 else none
  | c :: t => if pat.isPrefixOf (c :: t) then some 0 else (firstOccur pat t).map (· + 1)

/-- Substring test (Python's `in` on strings). -/
def containsSub (pat s : PyStr) : Bool := (firstOccur pat s).isSome

/-- Everything strictly before the first occurrence of `pat`; the whole
string when `pat` does not occur.  This is Python's `s.split(pat)[0]` for a
non-empty separator `pat`. -/
def takeBefore (pat : PyStr) : PyStr → PyStr
  | [] => []
  | c :: t => if pat.isPrefixOf (c :: t) then [] else c :: takeBefore pat t

/-- Split on `'\n'`; always returns at least one (possibly empty) chunk,
like Python's `s.split('\n')`. -/
def splitNl : PyStr → List PyStr
  | [] => [[]]
  | c :: t =>
    let r := splitNl t
    if c = '\n' then [] :: r else (c :: r.headD []) :: r.tail

/-- Python `str.splitlines()` restricted to `'\n'` separators: like
`splitNl` but with no empty final chunk when the text ends in a newline,
and no chunk at all for the empty string. -/
def pySplitlines (s : PyStr) : List PyStr :=
  if s = [] then []
  else if s.getLast? = some '\n' then (splitNl s).dropLast
  else splitNl s

/-- Decimal rendering of an integer, as Python's `str(i)` / f-strings
produce for `int`. -/
def intToStr (i : Int) : PyStr :=
  if i < 0 then '-' :: Nat.toDigits 10 i.natAbs else Nat.toDigits 10 i.toNat

/-! ## depend.py -/

/-- Version-specifier separators in the order the source applies them:
`split('==')[0].split('>=')[0].split('<=')[0].split('>')[0].split('<')[0].split('~=')[0]`. -/
def SEPS : List PyStr :=
  [['=', '='], ['>', '='], ['<', '='], ['>'], ['<'], ['~', '=']]

/-- Left fold of `takeBefore` over a separator list: the chained
`split(sep)[0]` calls of `depend.py`. -/
def chainTB (pats : List PyStr) (s : PyStr) : PyStr :=
  pats.foldl (fun acc p => takeBefore p acc) s

/-- The chained splits of `depend.py` lines 27 and 52. -/
def splitChainHead (s : PyStr) : PyStr := chainTB SEPS s

/-- Normalized package name of a dependency string as computed at
`depend.py` line 52: chained splits, then `strip()`, then `lower()`. -/
def normalizeName (d : PyStr) : PyStr := plower (pstrip (splitChainHead d))

/-- One iteration of the `read_requirements` loop (`depend.py` lines 22-28):
strip the line, skip it when blank or a `#` comment, otherwise extract the
normalized package name. -/
def processLine (line : PyStr) : Option PyStr :=
  let l := pstrip line
  if l = [] then none
  else if l.head? = some '#' then none
  else some (plower (pstrip (splitChainHead l)))

/-- Names collected from a manifest file's content. -/
def readLines (content : PyStr) : List PyStr :=
  (splitNl content).filterMap processLine

/-- `read_requirements` (`depend.py` lines 6-34).  The Python function
returns a set; membership in the returned list is what the callers use, so
a list with membership queries is a faithful image.  An absent file yields
the empty collection. -/
def read_requirements (file : Option PyStr) : List PyStr :=
  match file with
  | none => []
  | some content => readLines content

/-- The accumulation loop of `find_missing_dependencies`
(`depend.py` lines 50-54). -/
def findMissingAux (existing : List PyStr) : List PyStr → List PyStr
  | [] => []
  | d :: t =>
    if normalizeName d ∈ existing then findMissingAux existing t
    else d :: findMissingAux existing t

/-- `find_missing_dependencies` (`depend.py` lines 36-56): requested
entries, verbatim and in order, whose normalized name is not in the
manifest. -/
def find_missing_dependencies (deps : List PyStr) (file : Option PyStr) : List PyStr :=
  findMissingAux (read_requirements file) deps

/-- Everything strictly before the first position where any of `pats`
matches; the whole string when none ever matches. -/
def takeBeforeAny (pats : List PyStr) : PyStr → PyStr
  | [] => []
  | c :: t =>
    if pats.any (fun p => p.isPrefixOf (c :: t)) then []
    else c :: takeBeforeAny pats t

/-- Modelled from the spec: "a dependency string's package name is
everything before the first occurrence of any of `== >= <= > < ~=`;
comparison is case-insensitive on the name only."  This is the
specification's wording of the normalization rule, written independently
of the source's chained splits so the two can be compared. -/
def normalizeNameSpec (d : PyStr) : PyStr := plower (pstrip (takeBeforeAny SEPS d))

/-- The write loop of `append_to_requirements`: each dependency verbatim,
followed by a newline. -/
def writeLines : List PyStr → PyStr
  | [] => []
  | d :: t => d ++ '\n' :: writeLines t

/-- `append_to_requirements` (`depend.py` lines 58-95), success path:
no-op on an empty list; otherwise open in append mode (creating an absent
file), first writing a `'\n'` when the file is non-empty and does not end
with one, then each missing entry on its own line.  Returns the reported
success flag and the file's new content. -/
def append_to_requirements (missing : List PyStr) (file : Option PyStr) :
    Bool × Option PyStr :=
  if missing = [] then (true, file)
  else
    let base : PyStr :=
      match file with
      | none => []
      | some s => if s ≠ [] ∧ s.getLast? ≠ some '\n' then s ++ ['\n'] else s
    (true, some (base ++ writeLines missing))

/-! ## prompt_util.py -/

/-- The opening delimiter of a code block: the literal `` ```code ``. -/
def codeFence : PyStr := "```code".data

/-- The opening delimiter of a dependency block: the literal
`` ```dependencies ``. -/
def depsFence : PyStr := "```dependencies".data

/-- A closing fence: the literal `` ``` ``. -/
def closeFence : PyStr := "```".data

/-- Model of `re.search(r"```code\s*(.*?)```", text, re.DOTALL)`: the
captured group of the leftmost match, `none` when the pattern does not
match.  The leftmost match starts at the first occurrence of `` ```code ``;
the greedy `\s*` then absorbs the whitespace run (which can contain no
backtick), and the lazy `(.*?)` ends at the next `` ``` ``.  When no
`` ``` `` follows, no later start can match either, since any later
occurrence of `` ```code `` lies beyond this one. -/
def searchCode (s : PyStr) : Option PyStr :=
  match firstOccur codeFence s with
  | none => none
  | some i =>
    let r := (s.drop (i + codeFence.length)).dropWhile isPyWS
    match firstOccur closeFence r with
    | none => none
    | some k => some (r.take k)

/-- Model of `re.findall(r"```dependencies\s*(.*?)```", text, re.DOTALL)`:
leftmost, non-overlapping matches, scanning resuming after each closing
fence.  `fuel` makes the recursion structural; each step consumes at least
the opening fence, so the initial fuel `s.length + 1` is never
exhausted. -/
def findAllDepsGo : Nat → PyStr → List PyStr
  | 0, _ => []
  | fuel + 1, s =>
    match firstOccur depsFence s with
    | none => []
    | some i =>
      let r := (s.drop (i + depsFence.length)).dropWhile isPyWS
      match firstOccur closeFence r with
      | none => []
      | some k => r.take k :: findAllDepsGo fuel (r.drop (k + closeFence.length))

/-- All captured dependency blocks of the input text. -/
def findAllDeps (s : PyStr) : List PyStr := findAllDepsGo (s.length + 1) s

/-- One dependency block's contribution
(`[line.strip() for line in dep_block.splitlines() if line.strip()]`). -/
def cleanLines (block : PyStr) : List PyStr :=
  (pySplitlines block).filterMap fun line =>
    let l := pstrip line
    if l = [] then none else some l

/-- Result record of `extract_code_and_dependencies`. -/
structure ParseResult where
  success : Bool
  code : PyStr
  dependencies : List PyStr
  error : PyStr
deriving DecidableEq, Repr

/-- `extract_code_and_dependencies` (`prompt_util.py` lines 91-112): find
the code block and every dependency block, fail with `Code block not
found` when there is no code match, otherwise return the stripped code
group and the flattened non-blank dependency lines, in order,
unduplicated.  The `except` branch of the source is unreachable in this
model because every modelled operation is total. -/
def extract_code_and_dependencies (llm_response : PyStr) : ParseResult :=
  let deps_match := findAllDeps llm_response
  match searchCode llm_response with
  | none =>
    { success := false, code := [], dependencies := []
      error := "Code block not found".data }
  | some g =>
    { success := true, code := pstrip g
      dependencies := deps_match.foldl (fun acc b => acc ++ cleanLines b) []
      error := [] }

/-! ## exec.py -/

/-- The Python exceptions the modelled primitives can raise. -/
inductive PyExn where
  | ioError (msg : PyStr)
  | decodeError (msg : PyStr)
  | timeoutExpired
  | permissionError (msg : PyStr)
  | otherError (msg : PyStr)
deriving DecidableEq, Repr

/-- The text `str(e)` interpolates into an error message. -/
def PyExn.msg : PyExn → PyStr
  | .ioError m => m
  | .decodeError m => m
  | .timeoutExpired => []
  | .permissionError m => m
  | .otherError m => m

/-- Outcome of materializing the temporary source file
(`tempfile.NamedTemporaryFile` plus `f.write`). -/
inductive TempOutcome where
  | notCreated (e : PyExn)
  | writeFailed (name : PyStr) (e : PyExn)
  | ok (name : PyStr)
deriving DecidableEq, Repr

/-- Outcome of `subprocess.run` on the temporary file: completion with an
exit status and decoded streams (decoding uses a replacement policy so it
never raises), or an exception such as `TimeoutExpired`. -/
inductive RunOutcome where
  | completed (returncode : Int) (stdout stderr : PyStr)
  | raised (e : PyExn)
deriving DecidableEq, Repr

/-- Environment of one `execute_python_code` call: what the file system
and the subprocess do.  `fileExists` is the `os.path.exists` test in the
`finally` block; `unlink` is `none` when `os.unlink` succeeds and carries
the exception message otherwise; `elapsed` is the rounded wall-clock time
the completing or failing path records. -/
structure ExecEnv where
  temp : TempOutcome
  run : RunOutcome
  fileExists : Bool
  unlink : Option PyStr
  elapsed : Int
deriving DecidableEq, Repr

/-- The result dictionary of `execute_python_code` (`exec.py` lines
32-39).  `error_type` and `return_code` start as `None`, which `Option`
models. -/
structure ExecResult where
  success : Bool
  output : PyStr
  error : PyStr
  error_type : Option PyStr
  return_code : Option Int
  execution_time : Int
deriving DecidableEq, Repr

/-- The freshly initialized result dictionary. -/
def initResult : ExecResult :=
  { success := false, output := [], error := [], error_type := none
    return_code := none, execution_time := 0 }

/-- Result classification when the subprocess completed (`exec.py` lines
70-97): exit code 0 is success, with stripped non-empty stderr appended
to the output under a `[WARNINGS]` marker when stderr is captured; a
non-zero exit code is an `execution` failure whose message combines the
exit code with the stripped stderr (or a fixed fallback). -/
def classifyRun (rc : Int) (out err : PyStr) (capture_stderr : Bool)
    (elapsed : Int) : ExecResult :=
  if rc = 0 then
    let base : ExecResult :=
      { initResult with
        success := true, output := out, return_code := some rc,
        execution_time := elapsed }
    if err ≠ [] ∧ capture_stderr then
      let sc := pstrip err
      if sc ≠ [] then
        { base with
          output :=
            if out ≠ [] then out ++ "\n[WARNINGS]\n".data ++ sc
            else "[WARNINGS]\n".data ++ sc }
      else base
    else base
  else
    { initResult with
      success := false, error_type := some "execution".data,
      output := out,
      return_code := some rc,
      error := "Execution failed (return code: ".data ++ intToStr rc ++ ")\n".data
        ++ pstrip (if err ≠ [] then err else "Unknown execution error".data),
      execution_time := elapsed }

/-- The `except` chain of `exec.py` lines 99-124, in source order:
`TimeoutExpired`, then `PermissionError`, then the catch-all
`except Exception`.  Every branch records `return_code = -1`. -/
def handleExn (e : PyExn) (timeout : Int) (elapsed : Int) : ExecResult :=
  match e with
  | .timeoutExpired =>
    { initResult with
      success := false, error_type := some "timeout".data,
      error := "Code execution timed out after ".data ++ intToStr timeout
        ++ " seconds".data,
      return_code := some (-1), execution_time := elapsed }
  | .permissionError m =>
    { initResult with
      success := false, error_type := some "system".data,
      error := "Permission error: ".data ++ m,
      return_code := some (-1), execution_time := elapsed }
  | e' =>
    { initResult with
      success := false, error_type := some "system".data,
      error := "System error: ".data ++ e'.msg,
      return_code := some (-1), execution_time := elapsed }

/-- The `finally` block (`exec.py` lines 126-136) for a call whose
temporary file was created: delete it when it still exists; when deletion
raises, keep the file and append a cleanup warning to the result's error
text instead.  The second component reports whether the temporary file
remains on disk afterwards. -/
def applyCleanup (r : ExecResult) (env : ExecEnv) : ExecResult × Bool :=
  if env.fileExists then
    match env.unlink with
    | none => (r, false)
    | some m =>
      ({ r with
          error :=
          if r.error ≠ [] then
            r.error ++ "\n[Cleanup warning: Could not delete temp file: ".data
              ++ m ++ "]".data
          else "Cleanup warning: Could not delete temp file: ".data ++ m },
        true)
  else (r, false)

/-- `execute_python_code` (`exec.py` lines 9-138).  Blank input (Python
also short-circuits for non-string input, which this typed model cannot
express) returns the `input_validation` record without touching the
environment.  Otherwise the temporary file is materialized, the
interpreter subprocess runs, the outcome is classified, every raised
exception is converted to a result record by the `except` chain, and the
`finally` cleanup runs whenever the temporary file name was assigned.
The Python signature carries `timeout=50` and `capture_stderr=True`
defaults, passed explicitly here.  The pair's second component is whether
the temporary file remains on disk. -/
def execute_python_code (code : PyStr) (env : ExecEnv) (timeout : Int)
    (capture_stderr : Bool) : ExecResult × Bool :=
  if pstrip code = [] then
    ({ initResult with
        error := "Invalid or empty code provided".data,
        error_type := some "input_validation".data }, false)
  else
    match env.temp with
    | .notCreated e => (handleExn e timeout env.elapsed, false)
    | .writeFailed _ e => applyCleanup (handleExn e timeout env.elapsed) env
    | .ok _ =>
      match env.run with
      | .completed rc out err =>
        applyCleanup (classifyRun rc out err capture_stderr env.elapsed) env
      | .raised e => applyCleanup (handleExn e timeout env.elapsed) env

/-- Exception-level rendering of `execute_python_code`: the body's
primitive failures are re-raised as `Except.error` and then fed through
the translated `try/except/finally` structure, so a result of
`Except.error` would mean an exception escaping the function. -/
def execute_python_codeE (code : PyStr) (env : ExecEnv) (timeout : Int)
    (capture_stderr : Bool) : Except PyExn (ExecResult × Bool) :=
  if pstrip code = [] then
    .ok ({ initResult with
        error := "Invalid or empty code provided".data,
        error_type := some "input_validation".data }, false)
  else
    let body : Except PyExn ExecResult :=
      match env.temp with
      | .notCreated e => .error e
      | .writeFailed _ e => .error e
      | .ok _ =>
        match env.run with
        | .completed rc out err =>
          .ok (classifyRun rc out err capture_stderr env.elapsed)
        | .raised e => .error e
    let handled : Except PyExn ExecResult :=
      match body with
      | .ok r => .ok r
      | .error e => .ok (handleExn e timeout env.elapsed)
    match handled with
    | .error e => .error e
    | .ok r =>
      match env.temp with
      | .notCreated _ => .ok (r, false)
      | _ => .ok (applyCleanup r env)

/-! ## depend.py, exception level (for the propagation-policy claim) -/

/-- What reading the manifest file does.  `ioFault` carries the lines
decoded before the `IOError`; `decodeFault` is a `UnicodeDecodeError`
while decoding the file as UTF-8, which is a `ValueError`, not an
`IOError`. -/
inductive ReadOutcome where
  | ok (content : PyStr)
  | absent
  | ioFault (sofar : PyStr) (msg : PyStr)
  | decodeFault (sofar : PyStr) (msg : PyStr)
deriving DecidableEq, Repr

/-- Exception-level `read_requirements`: only `except IOError` guards the
read loop, so an `IOError` yields the names collected so far while a
decode failure propagates. -/
def read_requirementsE (env : ReadOutcome) : Except PyExn (List PyStr) :=
  match env with
  | .ok content => .ok (readLines content)
  | .absent => .ok []
  | .ioFault sofar _ => .ok (readLines sofar)
  | .decodeFault _ m => .error (.decodeError m)

/-- Exception-level `find_missing_dependencies`: pure filtering on top of
the manifest read. -/
def find_missing_dependenciesE (deps : List PyStr) (env : ReadOutcome) :
    Except PyExn (List PyStr) :=
  match read_requirementsE env with
  | .error e => .error e
  | .ok existing => .ok (findMissingAux existing deps)

/-- What writing to the manifest does.  `encodeFault` is a
`UnicodeEncodeError` while encoding an entry as UTF-8; like the decode
case it is not an `IOError`. -/
inductive WriteOutcome where
  | ok
  | ioFault (msg : PyStr)
  | encodeFault (msg : PyStr)
deriving DecidableEq, Repr

/-- Exception-level `append_to_requirements` (`depend.py` lines 58-95):
an empty list is a reported no-op success; `except IOError` converts I/O
failures to `False`; an encode failure propagates. -/
def append_to_requirementsE (missing : List PyStr) (env : WriteOutcome) :
    Except PyExn Bool :=
  if missing = [] then .ok true
  else
    match env with
    | .ok => .ok true
    | .ioFault _ => .ok false
    | .encodeFault m => .error (.decodeError m)

/-- What the `pip install` subprocess does. -/
inductive InstallOutcome where
  | ok
  | calledProcessFault (returncode : Int) (stderr : PyStr)
  | otherFault (msg : PyStr)
deriving DecidableEq, Repr

/-- Exception-level `install_packages` (`depend.py` lines 97-144): an
empty list succeeds without running pip; `except CalledProcessError` and
the catch-all `except Exception` turn every failure into `False`. -/
def install_packagesE (packages : List PyStr) (env : InstallOutcome) :
    Except PyExn Bool :=
  if packages = [] then .ok true
  else
    match env with
    | .ok => .ok true
    | .calledProcessFault _ _ => .ok false
    | .otherFault _ => .ok false

/-- Exception-level `manage_dependencies` (`depend.py` lines 146-179):
diff, then commit, then install, propagating any exception the callees
raise and translating reported failures into `False`. -/
def manage_dependenciesE (deps : List PyStr) (renv : ReadOutcome)
    (wenv : WriteOutcome) (ienv : InstallOutcome) (install_missing : Bool) :
    Except PyExn Bool :=
  match find_missing_dependenciesE deps renv with
  | .error e => .error e
  | .ok missing =>
    if missing = [] then .ok true
    else
      match append_to_requirementsE missing wenv with
      | .error e => .error e
      | .ok false => .ok false
      | .ok true => if install_missing then install_packagesE missing ienv else .ok true

/-! ## classify.py -/

/-- Environment of one orchestrated request: the generator's reply and the
execution environment at each attempt (attempt 0 is the initial one,
attempts from 2 on are the retries, matching the trial numbering of the
source).  The generator is an external collaborator; for any concrete run
its replies form some such sequence, so quantifying over `OrchEnv` covers
every collaborator behavior. -/
structure OrchEnv where
  response : Nat → PyStr
  exec : Nat → ExecEnv

/-- `retry` (`classify.py` lines 17-40): at or beyond the trial limit,
return the terminal message carrying the last error; otherwise re-parse
the regenerated reply (a parse failure returns an error message), re-run
the code, return its output on success and recurse with `trial + 1`
otherwise.  The Python recursive call omits `max_trials`, so the limit
resets to the default 6, which the recursive call reproduces literally.
`manage_dependencies` is invoked between parse and execution purely for
its side effects, which do not influence this return value.  The prompt
construction is an external collaborator and is absorbed into
`OrchEnv.response`. -/
def retry (oe : OrchEnv) (question code error_msg : PyStr) (trial : Nat)
    (max_trials : Nat) : PyStr :=
  if max_trials ≤ trial then
    "Max retries reached. Last error: ".data ++ error_msg
  else
    let result := extract_code_and_dependencies (oe.response trial)
    if result.success = false then
      "Error generating retry prompt: ".data ++ result.error
    else
      let r := (execute_python_code result.code (oe.exec trial) 50 true).1
      if r.success = true then r.output
      else retry oe question result.code r.error (trial + 1) 6
termination_by max max_trials 6 - trial
decreasing_by
  simp only [not_le] at *
  omega

/-- The argument `result['error_type'] + result['error']` that
`handle_execute_code_class` passes to `retry`; on every failing path of
`execute_python_code` the `error_type` field is a string, so the `none`
branch (which in Python would be a `TypeError`) is unreachable there. -/
def errPrefix (r : ExecResult) : PyStr :=
  (match r.error_type with
   | some s => s
   | none => []) ++ r.error

/-- `handle_execute_code_class` (`classify.py` lines 42-57): parse the
first reply, run the code, hand failures to `retry` starting at trial 2 —
and fall off the end of the function (Python's implicit `None`, here
`Option.none`) when the first execution succeeds.  The source passes the
dependency list as the second positional argument of
`execute_python_code`, binding it to `timeout`; the subprocess outcome of
that call is whatever `oe.exec 0` says.  `manage_dependencies` is again
invoked only for its side effects. -/
def handle_execute_code_class (oe : OrchEnv) (question : PyStr) : Option PyStr :=
  let result := extract_code_and_dependencies (oe.response 0)
  if result.success = false then
    some ("Error generating code: ".data ++ result.error)
  else
    let r := (execute_python_code result.code (oe.exec 0) 50 true).1
    if r.success = false then
      some (retry oe question result.code (errPrefix r) 2 6)
    else
      none

/-! ## Basic lemmas about the string primitives -/

theorem isPrefixOf_iff (pat s : PyStr) :
    pat.isPrefixOf s = true ↔ ∃ r, s = pat ++ r := by
  induction pat generalizing s with
  | nil => simp [List.isPrefixOf]
  | cons a as ih =>
    cases s with
    | nil => simp [List.isPrefixOf]
    | cons b bs =>
      simp only [List.isPrefixOf, Bool.and_eq_true, beq_iff_eq, ih, List.cons_append,
        List.cons.injEq]
      constructor
      · rintro ⟨hab, r, hr⟩
        exact ⟨r, hab.symm, hr⟩
      · rintro ⟨r, hab, hr⟩
        exact ⟨hab.symm, r, hr⟩

theorem isPrefixOf_append (pat z w : PyStr) (h : pat.isPrefixOf z = true) :
    pat.isPrefixOf (z ++ w) = true := by
  rw [isPrefixOf_iff] at h ⊢
  obtain ⟨r, rfl⟩ := h
  exact ⟨r ++ w, by simp⟩

theorem splitNl_ne_nil (s : PyStr) : splitNl s ≠ [] := by
  cases s with
  | nil => simp [splitNl]
  | cons c t =>
    simp only [splitNl]
    split <;> simp

theorem splitNl_append_nl (b v : PyStr) :
    splitNl (b ++ '\n' :: v) = splitNl b ++ splitNl v := by
  induction b with
  | nil => simp [splitNl]
  | cons c t ih =>
    by_cases hc : c = '\n'
    · subst hc
      simp [splitNl, ih]
    · obtain ⟨h, r, ht⟩ : ∃ h r, splitNl t = h :: r := by
        cases e : splitNl t with
        | nil => exact absurd e (splitNl_ne_nil t)
        | cons h r => exact ⟨h, r, rfl⟩
      simp [splitNl, hc, ih, ht]

theorem splitNl_of_not_mem (e : PyStr) (h : '\n' ∉ e) : splitNl e = [e] := by
  induction e with
  | nil => simp [splitNl]
  | cons c t ih =>
    simp only [List.mem_cons, not_or] at h
    simp [splitNl, Ne.symm h.1, ih h.2]

theorem splitNl_writeLines (es : List PyStr) (h : ∀ e ∈ es, '\n' ∉ e) :
    splitNl (writeLines es) = es ++ [[]] := by
  induction es with
  | nil => simp [writeLines, splitNl]
  | cons d t ih =>
    have hd : '\n' ∉ d := h d (by simp)
    calc splitNl (writeLines (d :: t)) = splitNl (d ++ '\n' :: writeLines t) := rfl
    _ = splitNl d ++ splitNl (writeLines t) := splitNl_append_nl _ _
    _ = [d] ++ (t ++ [[]]) := by
        rw [splitNl_of_not_mem d hd, ih (fun e he => h e (by simp [he]))]
    _ = (d :: t) ++ [[]] := by simp

/-! ## Lemmas about `takeBefore`, whitespace and the split chain -/

theorem takeBefore_all_ws (pat w : PyStr) (hne : pat ≠ [])
    (hnw : ∀ c ∈ pat, isPyWS c = false) (hw : ∀ c ∈ w, isPyWS c = true) :
    takeBefore pat w = w := by
  induction w with
  | nil => rfl
  | cons c t ih =>
    obtain ⟨p, pr, rfl⟩ : ∃ p pr, pat = p :: pr := by
      cases pat with
      | nil => exact absurd rfl hne
      | cons p pr => exact ⟨p, pr, rfl⟩
    have hpc : (p == c) = false := by
      rw [beq_eq_false_iff_ne]
      intro h
      have h1 := hnw p (by simp)
      have h2 := hw c (by simp)
      rw [h, h2] at h1
      cases h1
    simp only [takeBefore, List.isPrefixOf, hpc, Bool.false_and, Bool.false_eq_true,
      if_false]
    rw [ih (fun c hc => hw c (by simp [hc]))]

theorem takeBefore_lstrip (pat s : PyStr) (hne : pat ≠ [])
    (hnw : ∀ c ∈ pat, isPyWS c = false) :
    takeBefore pat (lstrip s) = lstrip (takeBefore pat s) := by
  induction s with
  | nil => rfl
  | cons c t ih =>
    by_cases hc : isPyWS c = true
    · obtain ⟨p, pr, rfl⟩ : ∃ p pr, pat = p :: pr := by
        cases pat with
        | nil => exact absurd rfl hne
        | cons p pr => exact ⟨p, pr, rfl⟩
      have hpc : (p == c) = false := by
        rw [beq_eq_false_iff_ne]
        intro h
        have h1 := hnw p (by simp)
        rw [h, hc] at h1
        cases h1
      have hlhs : lstrip (c :: t) = lstrip t := by simp [lstrip, List.dropWhile_cons, hc]
      rw [hlhs, ih]
      simp only [takeBefore, List.isPrefixOf, hpc, Bool.false_and, if_false]
      simp [lstrip, List.dropWhile_cons, hc]
    · have hc' : isPyWS c = false := by
        cases h : isPyWS c with
        | false => rfl
        | true => exact absurd h hc
      have hlhs : lstrip (c :: t) = c :: t := by simp [lstrip, List.dropWhile_cons, hc']
      rw [hlhs]
      by_cases hp : pat.isPrefixOf (c :: t) = true
      · simp [takeBefore, hp, lstrip]
      · simp only [takeBefore, hp, if_false, Bool.false_eq_true]
        simp [lstrip, List.dropWhile_cons, hc']

theorem isPrefixOf_of_append_ws (pat : PyStr) :
    (∀ c ∈ pat, isPyWS c = false) → ∀ z w : PyStr, (∀ c ∈ w, isPyWS c = true) →
    pat.isPrefixOf (z ++ w) = true → pat.isPrefixOf z = true := by
  induction pat with
  | nil =>
    intro _ z w _ _
    simp [List.isPrefixOf]
  | cons a as ih =>
    intro hnw z w hw h
    cases z with
    | nil =>
      rw [isPrefixOf_iff] at h
      obtain ⟨r, hr⟩ := h
      simp only [List.nil_append, List.cons_append] at hr
      have ha : a ∈ w := by rw [hr]; simp
      have h1 := hnw a (by simp)
      have h2 := hw a ha
      rw [h2] at h1
      cases h1
    | cons b bs =>
      simp only [List.cons_append, List.isPrefixOf, Bool.and_eq_true] at h ⊢
      exact ⟨h.1, ih (fun c hc => hnw c (by simp [hc])) bs w hw h.2⟩

theorem takeBefore_append_ws (pat : PyStr) (hne : pat ≠ [])
    (hnw : ∀ c ∈ pat, isPyWS c = false) (y w : PyStr)
    (hw : ∀ c ∈ w, isPyWS c = true) :
    takeBefore pat (y ++ w) = takeBefore pat y ++ w ∨
      takeBefore pat (y ++ w) = takeBefore pat y := by
  induction y with
  | nil =>
    left
    show takeBefore pat w = takeBefore pat [] ++ w
    rw [takeBefore_all_ws pat w hne hnw hw]
    rfl
  | cons c t ih =>
    by_cases hp : pat.isPrefixOf (c :: (t ++ w)) = true
    · right
      have hp' : pat.isPrefixOf (c :: t) = true :=
        isPrefixOf_of_append_ws pat hnw (c :: t) w hw (by simpa using hp)
      show takeBefore pat (c :: (t ++ w)) = takeBefore pat (c :: t)
      simp [takeBefore, hp, hp']
    · have hp' : pat.isPrefixOf (c :: t) = false := by
        cases h : pat.isPrefixOf (c :: t) with
        | false => rfl
        | true =>
          exact absurd (by simpa using isPrefixOf_append pat (c :: t) w h) hp
      show takeBefore pat (c :: (t ++ w)) = (takeBefore pat (c :: t)) ++ w ∨
        takeBefore pat (c :: (t ++ w)) = takeBefore pat (c :: t)
      simp only [takeBefore, hp, hp', if_false, Bool.false_eq_true]
      cases ih with
      | inl h1 => left; rw [h1]; rfl
      | inr h1 => right; rw [h1]

theorem chainTB_cons (p : PyStr) (ps : List PyStr) (s : PyStr) :
    chainTB (p :: ps) s = chainTB ps (takeBefore p s) := rfl

theorem chainTB_lstrip (pats : List PyStr)
    (h : ∀ p ∈ pats, p ≠ [] ∧ ∀ c ∈ p, isPyWS c = false) (s : PyStr) :
    chainTB pats (lstrip s) = lstrip (chainTB pats s) := by
  induction pats generalizing s with
  | nil => rfl
  | cons p ps ih =>
    have hp := h p (by simp)
    rw [chainTB_cons, chainTB_cons, takeBefore_lstrip p s hp.1 hp.2,
      ih (fun q hq => h q (by simp [hq]))]

theorem chainTB_append_ws (pats : List PyStr)
    (h : ∀ p ∈ pats, p ≠ [] ∧ ∀ c ∈ p, isPyWS c = false) (y w : PyStr)
    (hw : ∀ c ∈ w, isPyWS c = true) :
    chainTB pats (y ++ w) = chainTB pats y ++ w ∨
      chainTB pats (y ++ w) = chainTB pats y := by
  induction pats generalizing y with
  | nil => left; rfl
  | cons p ps ih =>
    have hp := h p (by simp)
    rw [chainTB_cons, chainTB_cons]
    cases takeBefore_append_ws p hp.1 hp.2 y w hw with
    | inl h1 =>
      rw [h1]
      exact ih (fun q hq => h q (by simp [hq])) (takeBefore p y)
    | inr h1 =>
      right
      rw [h1]

theorem takeBefore_prefix_decomp (pat s : PyStr) :
    ∃ r, s = takeBefore pat s ++ r := by
  induction s with
  | nil => exact ⟨[], rfl⟩
  | cons c t ih =>
    by_cases hp : pat.isPrefixOf (c :: t) = true
    · exact ⟨c :: t, by simp [takeBefore, hp]⟩
    · obtain ⟨r, hr⟩ := ih
      refine ⟨r, ?_⟩
      simp only [takeBefore, hp, if_false, Bool.false_eq_true, List.cons_append,
        List.cons.injEq, true_and]
      exact hr

theorem chainTB_prefix_decomp (pats : List PyStr) (s : PyStr) :
    ∃ r, s = chainTB pats s ++ r := by
  induction pats generalizing s with
  | nil => exact ⟨[], by simp [chainTB]⟩
  | cons p ps ih =>
    obtain ⟨r0, h0⟩ := takeBefore_prefix_decomp p s
    obtain ⟨r1, h1⟩ := ih (takeBefore p s)
    refine ⟨r1 ++ r0, ?_⟩
    calc s = takeBefore p s ++ r0 := h0
    _ = (chainTB ps (takeBefore p s) ++ r1) ++ r0 := by rw [← h1]
    _ = chainTB (p :: ps) s ++ (r1 ++ r0) := by rw [chainTB_cons, List.append_assoc]

theorem lstrip_head_not_ws (s : PyStr) (c : Char) (t : PyStr)
    (h : lstrip s = c :: t) : isPyWS c = false := by
  induction s with
  | nil => simp [lstrip] at h
  | cons a u ih =>
    by_cases ha : isPyWS a = true
    · rw [show lstrip (a :: u) = lstrip u by simp [lstrip, List.dropWhile_cons, ha]] at h
      exact ih h
    · have ha' : isPyWS a = false := by
        cases h2 : isPyWS a with
        | false => rfl
        | true => exact absurd h2 ha
      rw [show lstrip (a :: u) = a :: u by simp [lstrip, List.dropWhile_cons, ha']] at h
      cases h
      exact ha'

theorem lstrip_fixed_of_decomp (s z : PyStr) (h : ∃ r, lstrip s = z ++ r) :
    lstrip z = z := by
  cases z with
  | nil => rfl
  | cons c t =>
    obtain ⟨r, hr⟩ := h
    have hc : isPyWS c = false := lstrip_head_not_ws s c (t ++ r) (by rw [hr]; rfl)
    simp [lstrip, List.dropWhile_cons, hc]

theorem dropWhile_append_all (p : Char → Bool) (a b : List Char)
    (h : ∀ x ∈ a, p x = true) : (a ++ b).dropWhile p = b.dropWhile p := by
  induction a with
  | nil => rfl
  | cons c t ih =>
    simp only [List.cons_append, List.dropWhile_cons, h c (by simp), if_true]
    exact ih (fun x hx => h x (by simp [hx]))

theorem rstrip_append_ws (z w : PyStr) (hw : ∀ c ∈ w, isPyWS c = true) :
    rstrip (z ++ w) = rstrip z := by
  unfold rstrip
  rw [List.reverse_append, dropWhile_append_all isPyWS w.reverse z.reverse
    (fun x hx => hw x (by simpa using hx))]

theorem rstrip_decomp (s : PyStr) :
    ∃ w, s = rstrip s ++ w ∧ ∀ c ∈ w, isPyWS c = true := by
  refine ⟨(s.reverse.takeWhile isPyWS).reverse, ?_, ?_⟩
  · conv_lhs => rw [← s.reverse_reverse,
      ← List.takeWhile_append_dropWhile isPyWS s.reverse]
    rw [List.reverse_append]
    rfl
  · intro c hc
    rw [List.mem_reverse] at hc
    exact List.mem_takeWhile_imp hc

theorem pstrip_chain_pstrip (d : PyStr) :
    pstrip (splitChainHead (pstrip d)) = pstrip (splitChainHead d) := by
  have hSEPS : ∀ p ∈ SEPS, p ≠ [] ∧ ∀ c ∈ p, isPyWS c = false := by decide
  obtain ⟨w, hdw, hw⟩ := rstrip_decomp (lstrip d)
  have hfix : lstrip (splitChainHead (rstrip (lstrip d))) =
      splitChainHead (rstrip (lstrip d)) := by
    obtain ⟨r1, hr1⟩ := chainTB_prefix_decomp SEPS (rstrip (lstrip d))
    exact lstrip_fixed_of_decomp d _
      ⟨r1 ++ w, by
        unfold splitChainHead
        rw [← List.append_assoc, ← hr1, ← hdw]⟩
  have hA : splitChainHead (lstrip d) = lstrip (splitChainHead d) :=
    chainTB_lstrip SEPS hSEPS d
  have hB := chainTB_append_ws SEPS hSEPS (rstrip (lstrip d)) w hw
  rw [← hdw] at hB
  show pstrip (splitChainHead (rstrip (lstrip d))) = pstrip (splitChainHead d)
  have hLHS : pstrip (splitChainHead (rstrip (lstrip d))) =
      rstrip (splitChainHead (rstrip (lstrip d))) := by
    unfold pstrip
    rw [hfix]
  have hRHS : pstrip (splitChainHead d) =
      rstrip (splitChainHead (lstrip d)) := by
    unfold pstrip
    rw [hA]
  rw [hLHS, hRHS]
  show rstrip (chainTB SEPS (rstrip (lstrip d))) = rstrip (chainTB SEPS (lstrip d))
  cases hB with
  | inl h1 => rw [h1, rstrip_append_ws _ _ hw]
  | inr h1 => rw [h1]

/-! ## Lemmas about the dependency reconciler -/

theorem processLine_writeback (d : PyStr) (h1 : pstrip d ≠ [])
    (h2 : (pstrip d).head? ≠ some '#') :
    processLine d = some (normalizeName d) := by
  have step : processLine d = some (plower (pstrip (splitChainHead (pstrip d)))) := by
    simp only [processLine, h1, h2, if_false]
  rw [step]
  unfold normalizeName
  rw [pstrip_chain_pstrip]

theorem mem_of_findMissingAux (ex l : List PyStr) (x : PyStr)
    (h : x ∈ findMissingAux ex l) : x ∈ l := by
  induction l with
  | nil => simp [findMissingAux] at h
  | cons d t ih =>
    by_cases hd : normalizeName d ∈ ex
    · simp only [findMissingAux, if_pos hd] at h
      exact List.mem_cons_of_mem _ (ih h)
    · simp only [findMissingAux, if_neg hd, List.mem_cons] at h
      cases h with
      | inl h1 => simp [h1]
      | inr h1 => exact List.mem_cons_of_mem _ (ih h1)

theorem findMissingAux_mem (ex l : List PyStr) (d : PyStr) (hd : d ∈ l)
    (hnot : normalizeName d ∉ ex) : d ∈ findMissingAux ex l := by
  induction l with
  | nil => simp at hd
  | cons a t ih =>
    rw [List.mem_cons] at hd
    cases hd with
    | inl h1 =>
      subst h1
      simp [findMissingAux, if_neg hnot]
    | inr h1 =>
      by_cases ha : normalizeName a ∈ ex
      · simp only [findMissingAux, if_pos ha]
        exact ih h1
      · simp only [findMissingAux, if_neg ha]
        exact List.mem_cons_of_mem _ (ih h1)

theorem findMissingAux_eq_nil (ex l : List PyStr)
    (h : ∀ d ∈ l, normalizeName d ∈ ex) : findMissingAux ex l = [] := by
  induction l with
  | nil => rfl
  | cons d t ih =>
    simp only [findMissingAux, if_pos (h d (by simp))]
    exact ih (fun x hx => h x (by simp [hx]))

theorem filterMap_all_some (f : PyStr → Option PyStr) (g : PyStr → PyStr)
    (l : List PyStr) (h : ∀ x ∈ l, f x = some (g x)) :
    l.filterMap f = l.map g := by
  induction l with
  | nil => rfl
  | cons a t ih =>
    rw [List.filterMap_cons, h a (by simp), List.map_cons,
      ih (fun x hx => h x (by simp [hx]))]

theorem processLine_nil : processLine [] = none := rfl

theorem read_after_append (M : List PyStr) (file : Option PyStr) (hM : M ≠ [])
    (hnl : ∀ e ∈ M, '\n' ∉ e) :
    read_requirements (append_to_requirements M file).2 =
      read_requirements file ++ M.filterMap processLine := by
  have hsplitW : splitNl (writeLines M) = M ++ [[]] := splitNl_writeLines M hnl
  cases file with
  | none =>
    have hbase : (append_to_requirements M none).2 = some ([] ++ writeLines M) := by
      simp only [append_to_requirements, if_neg hM]
    rw [hbase]
    simp only [List.nil_append]
    show (splitNl (writeLines M)).filterMap processLine =
      read_requirements none ++ M.filterMap processLine
    rw [hsplitW, List.filterMap_append]
    simp [read_requirements, processLine_nil]
  | some s =>
    by_cases hg : s ≠ [] ∧ s.getLast? ≠ some '\n'
    · have hbase : (append_to_requirements M (some s)).2 =
          some ((s ++ ['\n']) ++ writeLines M) := by
        simp only [append_to_requirements, if_neg hM, if_pos hg]
      rw [hbase]
      show ((splitNl ((s ++ ['\n']) ++ writeLines M)).filterMap processLine) =
        readLines s ++ M.filterMap processLine
      have : (s ++ ['\n']) ++ writeLines M = s ++ '\n' :: writeLines M := by
        rw [List.append_assoc]
        rfl
      rw [this, splitNl_append_nl, hsplitW, List.filterMap_append, List.filterMap_append]
      simp [readLines, processLine_nil]
    · have hbase : (append_to_requirements M (some s)).2 =
          some (s ++ writeLines M) := by
        simp only [append_to_requirements, if_neg hM, if_neg hg]
      rw [hbase]
      rw [not_and_or] at hg
      by_cases hs : s = []
      · subst hs
        show ((splitNl ([] ++ writeLines M)).filterMap processLine) =
          readLines [] ++ M.filterMap processLine
        rw [List.nil_append, hsplitW, List.filterMap_append]
        simp [readLines, splitNl, processLine_nil]
      · have hlast : s.getLast? = some '\n' := by
          cases hg with
          | inl h1 => exact absurd hs (by simpa using h1)
          | inr h1 => simpa using h1
        obtain ⟨s', rfl⟩ : ∃ s', s = s' ++ ['\n'] := by
          refine ⟨s.dropLast, ?_⟩
          have hgl : s.getLast hs = '\n' := by
            have := List.getLast?_eq_getLast s hs
            rw [this] at hlast
            exact (Option.some.injEq _ _).mp hlast
          rw [← hgl]
          exact (List.dropLast_append_getLast hs).symm
        show ((splitNl ((s' ++ ['\n']) ++ writeLines M)).filterMap processLine) =
          readLines (s' ++ ['\n']) ++ M.filterMap processLine
        have h2 : (s' ++ ['\n']) ++ writeLines M = s' ++ '\n' :: writeLines M := by
          rw [List.append_assoc]
          rfl
        have h3 : (s' ++ ['\n'] : PyStr) = s' ++ '\n' :: [] := rfl
        rw [h2, splitNl_append_nl, hsplitW, List.filterMap_append]
        rw [readLines, h3, splitNl_append_nl, List.filterMap_append]
        simp [splitNl, processLine_nil]

/-- C4 (counterexample): the blank dependency string breaks diff-commit
idempotence.  `find_missing_dependencies [""]` against an absent manifest
returns `[""]`; committing it writes a blank line, which
`read_requirements` skips, so the second diff still returns `[""]`,
not the empty list the claim requires. -/
theorem c4_counterexample :
    find_missing_dependencies [[]]
      ((append_to_requirements (find_missing_dependencies [[]] none) none).2) =
      [[]] := by
  decide

/-- C4: for dependency lists whose entries survive the manifest's line
filter — no newline inside an entry, a non-blank stripped form, and no
leading `#` — `find_missing_dependencies` followed by
`append_to_requirements` is idempotent: a second diff of the same list
against the updated manifest finds nothing missing. -/
theorem c4_diff_commit_idempotent (L : List PyStr) (file : Option PyStr)
    (h : ∀ d ∈ L, '\n' ∉ d ∧ pstrip d ≠ [] ∧ (pstrip d).head? ≠ some '#') :
    find_missing_dependencies L
      (append_to_requirements (find_missing_dependencies L file) file).2 = [] := by
  by_cases hM : find_missing_dependencies L file = []
  · rw [hM]
    have hid : (append_to_requirements [] file).2 = file := rfl
    rw [hid]
    exact hM
  · have hnl : ∀ e ∈ find_missing_dependencies L file, '\n' ∉ e := fun e he =>
      (h e (mem_of_findMissingAux _ _ _ he)).1
    have hread := read_after_append _ file hM hnl
    show findMissingAux
      (read_requirements (append_to_requirements (find_missing_dependencies L file) file).2)
      L = []
    apply findMissingAux_eq_nil
    intro d hd
    rw [hread]
    by_cases hin : normalizeName d ∈ read_requirements file
    · exact List.mem_append_left _ hin
    · apply List.mem_append_right
      have hdM : d ∈ find_missing_dependencies L file :=
        findMissingAux_mem _ _ _ hd hin
      rw [filterMap_all_some processLine normalizeName
        (find_missing_dependencies L file)
        (fun x hx =>
          processLine_writeback x
            (h x (mem_of_findMissingAux (read_requirements file) L x hx)).2.1
            (h x (mem_of_findMissingAux (read_requirements file) L x hx)).2.2)]
      exact List.mem_map_of_mem _ hdM

/-- C4 (witness): a concrete committed list is no longer missing on the
second diff. -/
theorem c4_witness :
    find_missing_dependencies ["numpy==1.24.3".data, "Pandas".data]
      ((append_to_requirements
        (find_missing_dependencies ["numpy==1.24.3".data, "Pandas".data] none)
        none).2) = [] :=
  c4_diff_commit_idempotent ["numpy==1.24.3".data, "Pandas".data] none (by decide)

/-! ## The find-missing characterization (C6) -/

theorem findMissingAux_eq_filter (ex l : List PyStr) :
    findMissingAux ex l = l.filter (fun d => decide (normalizeName d ∉ ex)) := by
  induction l with
  | nil => rfl
  | cons d t ih =>
    by_cases hd : normalizeName d ∈ ex
    · simp [findMissingAux, if_pos hd, List.filter_cons, hd, ih]
    · simp [findMissingAux, if_neg hd, List.filter_cons, hd, ih]

/-- C6 (counterexample): the claim's normalization rule — "everything
before the first occurrence of any of `== >= <= > < ~=`" — disagrees with
the source's chained splits on `"a~==b"`: the first occurrence of any
separator is `~=` at index 1, so the rule yields `"a"`, but the code
splits on `==` first and keeps `"a~"`.  Consequently, against a manifest
containing `a`, the code still reports `"a~==b"` missing while the
claimed rule would not. -/
theorem c6_counterexample :
    normalizeName "a~==b".data = "a~".data ∧
      normalizeNameSpec "a~==b".data = "a".data ∧
      normalizeName "a~==b".data ≠ normalizeNameSpec "a~==b".data ∧
      find_missing_dependencies ["a~==b".data] (some "a\n".data) = ["a~==b".data] ∧
      normalizeNameSpec "a~==b".data ∈ read_requirements (some "a\n".data) := by
  decide

/-- C6: with the normalization read as the source's sequential splits
(`normalizeName`), `find_missing_dependencies` returns exactly the
requested entries, as original unnormalized strings, whose normalized
name is absent from the manifest (a filter over the request list), and an
absent manifest is treated as the empty set, so every requested entry is
reported missing. -/
theorem c6_find_missing_characterization (L : List PyStr) (file : Option PyStr) :
    find_missing_dependencies L file =
      L.filter (fun d => decide (normalizeName d ∉ read_requirements file)) ∧
    read_requirements none = [] ∧
    find_missing_dependencies L none = L := by
  refine ⟨findMissingAux_eq_filter _ _, rfl, ?_⟩
  show findMissingAux (read_requirements none) L = L
  rw [findMissingAux_eq_filter]
  apply List.filter_eq_self.mpr
  intro a _
  simp [read_requirements]

/-! ## The response parser (C7, C10) -/

theorem foldl_append_cleanLines (bs : List PyStr) (acc : List PyStr) :
    bs.foldl (fun a b => a ++ cleanLines b) acc = acc ++ (bs.map cleanLines).flatten := by
  induction bs generalizing acc with
  | nil => simp
  | cons b t ih => simp [List.foldl_cons, ih]

theorem extract_eq_of_searchCode_none (s : PyStr) (h : searchCode s = none) :
    extract_code_and_dependencies s =
      ⟨false, [], [], "Code block not found".data⟩ := by
  simp [extract_code_and_dependencies, h]

/-- C7: `extract_code_and_dependencies` fails with exactly
`{success: false, code: "", dependencies: [], error: "Code block not
found"}` precisely when no code delimiter pair is found, and on success
returns the trimmed captured group together with the flattened,
order-preserving concatenation of the non-blank stripped lines of all
dependency blocks — a formula that keeps duplicates. -/
theorem c7_extract_contract (s : PyStr) :
    ((extract_code_and_dependencies s).success = false ↔ searchCode s = none) ∧
    (searchCode s = none →
      extract_code_and_dependencies s =
        ⟨false, [], [], "Code block not found".data⟩) ∧
    (∀ g, searchCode s = some g →
      extract_code_and_dependencies s =
        ⟨true, pstrip g, ((findAllDeps s).map cleanLines).flatten, []⟩) := by
  cases e : searchCode s with
  | none =>
    refine ⟨?_, fun _ => extract_eq_of_searchCode_none s e, fun g hg => nomatch hg⟩
    rw [extract_eq_of_searchCode_none s e]
    simp
  | some g =>
    refine ⟨?_, ?_, ?_⟩
    · simp [extract_code_and_dependencies, e]
    · intro h
      exact Option.noConfusion h
    · intro g' hg'
      injection hg' with h2
      subst h2
      simp only [extract_code_and_dependencies, e]
      rw [foldl_append_cleanLines]
      simp

/-- C7 (witness): a concrete reply with one code block and a duplicated
dependency line parses to the trimmed code and the unduplicated line
list. -/
theorem c7_witness :
    extract_code_and_dependencies
      "ok\n```code\nx = 1\n```\n```dependencies\nnumpy\nnumpy\n```".data =
      ⟨true, "x = 1".data, ["numpy".data, "numpy".data], []⟩ := by
  have h := (c7_extract_contract
    "ok\n```code\nx = 1\n```\n```dependencies\nnumpy\nnumpy\n```".data).2.2
    ("x = 1\n".data) (by decide)
  rw [h]
  decide

/-- C10 (counterexample): a fence tagged `codex` — a tag other than the
literal `code` — is accepted, not rejected: the parser succeeds and the
tag remainder `x` leaks into the extracted code, contradicting the
claim that any tag other than `code` yields `success = false`. -/
theorem c10_counterexample :
    (extract_code_and_dependencies "```codex\nprint(1)\n```".data).success = true ∧
    (extract_code_and_dependencies "```codex\nprint(1)\n```".data).code =
      "x\nprint(1)".data := by
  decide

/-- C10: the parser keys on the literal character run `` ```code ``; any
input that does not contain it — for example fences tagged `python` or
untagged fences — fails with the `Code block not found` record.  (The
counterexample shows the claim's stronger reading is false: a tag that
merely begins with `code` is accepted.) -/
theorem c10_fence_tag (s : PyStr) (h : containsSub codeFence s = false) :
    extract_code_and_dependencies s =
      ⟨false, [], [], "Code block not found".data⟩ := by
  have hocc : firstOccur codeFence s = none := by
    cases e : firstOccur codeFence s with
    | none => rfl
    | some i =>
      rw [containsSub, e] at h
      simp at h
  have hsearch : searchCode s = none := by
    unfold searchCode
    rw [hocc]
  exact extract_eq_of_searchCode_none s hsearch

/-- C10 (witness): a `python`-tagged fence is not recognized. -/
theorem c10_witness :
    extract_code_and_dependencies "```python\nprint(1)\n```".data =
      ⟨false, [], [], "Code block not found".data⟩ :=
  c10_fence_tag "```python\nprint(1)\n```".data (by decide)

/-! ## Lemmas about the executor (C2, C3, C9) -/

theorem firstOccur_isSome_of_prefixOf (p s : PyStr) (h : p.isPrefixOf s = true) :
    (firstOccur p s).isSome = true := by
  cases s with
  | nil => simp [firstOccur, h]
  | cons c t => simp [firstOccur, h]

theorem containsSub_sandwich (p a b : PyStr) : containsSub p (a ++ (p ++ b)) = true := by
  induction a with
  | nil =>
    simp only [List.nil_append]
    exact firstOccur_isSome_of_prefixOf p _ ((isPrefixOf_iff p _).mpr ⟨b, rfl⟩)
  | cons c t ih =>
    by_cases hp : p.isPrefixOf (c :: (t ++ (p ++ b))) = true
    · simp [containsSub, firstOccur, hp]
    · show (firstOccur p ((c :: t) ++ (p ++ b))).isSome = true
      rw [List.cons_append]
      rw [show firstOccur p (c :: (t ++ (p ++ b))) =
        (firstOccur p (t ++ (p ++ b))).map (· + 1) by simp [firstOccur, hp]]
      cases e2 : firstOccur p (t ++ (p ++ b)) with
      | none =>
        unfold containsSub at ih
        rw [e2] at ih
        simp at ih
      | some i => simp

theorem applyCleanup_preserves (r : ExecResult) (env : ExecEnv) :
    (applyCleanup r env).1.success = r.success ∧
    (applyCleanup r env).1.output = r.output ∧
    (applyCleanup r env).1.error_type = r.error_type ∧
    (applyCleanup r env).1.return_code = r.return_code := by
  unfold applyCleanup
  by_cases hf : env.fileExists = true
  · simp only [hf, if_true]
    cases env.unlink <;> simp
  · simp only [Bool.not_eq_true] at hf
    simp [hf]

theorem applyCleanup_error_append (r : ExecResult) (env : ExecEnv) :
    ∃ sfx, (applyCleanup r env).1.error = r.error ++ sfx := by
  unfold applyCleanup
  by_cases hf : env.fileExists = true
  · simp only [hf, if_true]
    cases env.unlink with
    | none => exact ⟨[], by simp⟩
    | some m =>
      by_cases he : r.error ≠ []
      · exact ⟨"\n[Cleanup warning: Could not delete temp file: ".data ++ m ++ "]".data,
          by simp [he]⟩
      · simp only [ne_eq, not_not] at he
        exact ⟨"Cleanup warning: Could not delete temp file: ".data ++ m,
          by simp [he]⟩
  · simp only [Bool.not_eq_true] at hf
    simp only [hf, Bool.false_eq_true, if_false]
    exact ⟨[], by simp⟩

theorem applyCleanup_snd_false (r : ExecResult) (env : ExecEnv)
    (h : env.unlink = none) : (applyCleanup r env).2 = false := by
  unfold applyCleanup
  by_cases hf : env.fileExists = true
  · simp [hf, h]
  · simp only [Bool.not_eq_true] at hf
    simp [hf]

theorem applyCleanup_eq_of_some (r : ExecResult) (env : ExecEnv) (m : PyStr)
    (hf : env.fileExists = true) (hu : env.unlink = some m) :
    applyCleanup r env =
      ({ r with error :=
          if r.error ≠ [] then
            r.error ++ "\n[Cleanup warning: Could not delete temp file: ".data
              ++ m ++ "]".data
          else "Cleanup warning: Could not delete temp file: ".data ++ m }, true) := by
  unfold applyCleanup
  rw [hf, hu]
  rfl

theorem applyCleanup_eq_of_none (r : ExecResult) (env : ExecEnv)
    (hu : env.unlink = none) : applyCleanup r env = (r, false) := by
  unfold applyCleanup
  rw [hu]
  by_cases hf : env.fileExists = true
  · rw [hf]
    rfl
  · simp only [Bool.not_eq_true] at hf
    rw [hf]
    rfl

theorem applyCleanup_eq_of_notexists (r : ExecResult) (env : ExecEnv)
    (hf : env.fileExists = false) : applyCleanup r env = (r, false) := by
  unfold applyCleanup
  rw [hf]
  rfl

theorem applyCleanup_snd_true (r : ExecResult) (env : ExecEnv)
    (h : (applyCleanup r env).2 = true) :
    ∃ m, env.unlink = some m ∧
      containsSub "Cleanup warning: Could not delete temp file: ".data
        (applyCleanup r env).1.error = true := by
  by_cases hf : env.fileExists = true
  · cases hu : env.unlink with
    | none =>
      rw [applyCleanup_eq_of_none r env hu] at h
      simp at h
    | some m =>
      rw [applyCleanup_eq_of_some r env m hf hu] at h ⊢
      refine ⟨m, rfl, ?_⟩
      show containsSub "Cleanup warning: Could not delete temp file: ".data
        (if r.error ≠ [] then
          r.error ++ "\n[Cleanup warning: Could not delete temp file: ".data
            ++ m ++ "]".data
        else "Cleanup warning: Could not delete temp file: ".data ++ m) = true
      by_cases he : r.error ≠ []
      · rw [if_pos he]
        have hdec : ("\n[Cleanup warning: Could not delete temp file: ".data : PyStr) =
            "\n[".data ++ "Cleanup warning: Could not delete temp file: ".data := by decide
        have hform : r.error ++ "\n[Cleanup warning: Could not delete temp file: ".data
            ++ m ++ "]".data =
            (r.error ++ "\n[".data) ++
              ("Cleanup warning: Could not delete temp file: ".data ++ (m ++ "]".data)) := by
          rw [hdec]
          simp [List.append_assoc]
        rw [hform]
        exact containsSub_sandwich _ _ _
      · rw [if_neg he]
        exact containsSub_sandwich _ [] m
  · simp only [Bool.not_eq_true] at hf
    rw [applyCleanup_eq_of_notexists r env hf] at h
    simp at h

theorem execute_eq_blank (code : PyStr) (env : ExecEnv) (timeout : Int) (cap : Bool)
    (hcode : pstrip code = []) :
    execute_python_code code env timeout cap =
      ({ initResult with
          error := "Invalid or empty code provided".data,
          error_type := some "input_validation".data }, false) := by
  unfold execute_python_code
  rw [if_pos hcode]

theorem execute_eq_notCreated (code : PyStr) (env : ExecEnv) (timeout : Int)
    (cap : Bool) (e : PyExn) (hcode : pstrip code ≠ [])
    (htemp : env.temp = TempOutcome.notCreated e) :
    execute_python_code code env timeout cap =
      (handleExn e timeout env.elapsed, false) := by
  unfold execute_python_code
  rw [if_neg hcode, htemp]

theorem execute_eq_writeFailed (code : PyStr) (env : ExecEnv) (timeout : Int)
    (cap : Bool) (nm : PyStr) (e : PyExn) (hcode : pstrip code ≠ [])
    (htemp : env.temp = TempOutcome.writeFailed nm e) :
    execute_python_code code env timeout cap =
      applyCleanup (handleExn e timeout env.elapsed) env := by
  unfold execute_python_code
  rw [if_neg hcode, htemp]

theorem execute_eq_completed (code : PyStr) (env : ExecEnv) (timeout : Int)
    (cap : Bool) (rc : Int) (out err : PyStr) (n : PyStr)
    (hcode : pstrip code ≠ []) (htemp : env.temp = TempOutcome.ok n)
    (hrun : env.run = RunOutcome.completed rc out err) :
    execute_python_code code env timeout cap =
      applyCleanup (classifyRun rc out err cap env.elapsed) env := by
  unfold execute_python_code
  rw [if_neg hcode, htemp, hrun]

theorem execute_eq_raised (code : PyStr) (env : ExecEnv) (timeout : Int)
    (cap : Bool) (e : PyExn) (n : PyStr)
    (hcode : pstrip code ≠ []) (htemp : env.temp = TempOutcome.ok n)
    (hrun : env.run = RunOutcome.raised e) :
    execute_python_code code env timeout cap =
      applyCleanup (handleExn e timeout env.elapsed) env := by
  unfold execute_python_code
  rw [if_neg hcode, htemp, hrun]

theorem handleExn_return_code (e : PyExn) (timeout el : Int) :
    (handleExn e timeout el).return_code = some (-1) := by
  cases e <;> rfl

theorem classifyRun_zero_nowarn (out err : PyStr) (cap : Bool) (el : Int)
    (h : pstrip err = []) :
    classifyRun 0 out err cap el =
      { initResult with
        success := true, output := out, return_code := some 0,
        execution_time := el } := by
  simp [classifyRun, h]

theorem classifyRun_zero_nocap (out err : PyStr) (el : Int) :
    classifyRun 0 out err false el =
      { initResult with
        success := true, output := out, return_code := some 0,
        execution_time := el } := by
  simp [classifyRun]

theorem classifyRun_zero_warn (out err : PyStr) (el : Int)
    (h : pstrip err ≠ []) :
    classifyRun 0 out err true el =
      { initResult with
        success := true, return_code := some 0,
        execution_time := el,
        output :=
          if out ≠ [] then out ++ "\n[WARNINGS]\n".data ++ pstrip err
          else "[WARNINGS]\n".data ++ pstrip err } := by
  have herr : err ≠ [] := by
    intro hn
    rw [hn] at h
    exact h rfl
  simp [classifyRun, herr, h]

theorem classifyRun_nonzero (rc : Int) (out err : PyStr) (cap : Bool) (el : Int)
    (h : rc ≠ 0) :
    classifyRun rc out err cap el =
      { initResult with
        success := false, error_type := some "execution".data,
        output := out, return_code := some rc,
        error := "Execution failed (return code: ".data ++ intToStr rc ++ ")\n".data
          ++ pstrip (if err ≠ [] then err else "Unknown execution error".data),
        execution_time := el } := by
  simp only [classifyRun]
  rw [if_neg h]

theorem classifyRun_return_code (rc : Int) (out err : PyStr) (cap : Bool) (el : Int) :
    (classifyRun rc out err cap el).return_code = some rc := by
  by_cases h0 : rc = 0
  · subst h0
    by_cases hcap : cap = true
    · subst hcap
      by_cases hws : pstrip err = []
      · rw [classifyRun_zero_nowarn out err true el hws]
      · rw [classifyRun_zero_warn out err el hws]
    · have : cap = false := by
        cases cap with
        | false => rfl
        | true => exact absurd rfl hcap
      subst this
      rw [classifyRun_zero_nocap out err el]
  · rw [classifyRun_nonzero rc out err cap el h0]

/-- C2 (counterexample): stderr `" "` is non-empty, yet on a zero exit the
code strips it to nothing and appends no `[WARNINGS]` marker, so the
claim's "non-empty stderr" case is wrong as stated: the output stays
`"hi"` untouched. -/
theorem c2_counterexample :
    (execute_python_code "x".data
      ⟨TempOutcome.ok "t".data, RunOutcome.completed 0 "hi".data " ".data,
        true, none, 0⟩ 50 true).1.output = "hi".data ∧
    containsSub "[WARNINGS]".data
      ((execute_python_code "x".data
        ⟨TempOutcome.ok "t".data, RunOutcome.completed 0 "hi".data " ".data,
          true, none, 0⟩ 50 true).1.output) = false := by
  decide

/-- C2: classification of a completed subprocess under the default
arguments.  Exit code 0 with stderr that strips to nothing (empty or
whitespace-only) gives `success = true`, `error_type = none`, and the
stdout unchanged; exit code 0 with stderr that is non-empty after
stripping appends the stripped stderr under a `[WARNINGS]` marker;
a non-zero exit gives `success = false`, `error_type = "execution"`, and
an error message containing both the exit code and the stripped stderr
text. -/
theorem c2_executor_classification (code : PyStr) (env : ExecEnv) (n : PyStr)
    (rc : Int) (out err : PyStr)
    (hcode : pstrip code ≠ [])
    (htemp : env.temp = TempOutcome.ok n)
    (hrun : env.run = RunOutcome.completed rc out err) :
    (rc = 0 → pstrip err = [] →
      (execute_python_code code env 50 true).1.success = true ∧
      (execute_python_code code env 50 true).1.error_type = none ∧
      (execute_python_code code env 50 true).1.output = out) ∧
    (rc = 0 → pstrip err ≠ [] →
      (execute_python_code code env 50 true).1.success = true ∧
      (execute_python_code code env 50 true).1.error_type = none ∧
      (execute_python_code code env 50 true).1.output =
        (if out ≠ [] then out ++ "\n[WARNINGS]\n".data ++ pstrip err
         else "[WARNINGS]\n".data ++ pstrip err)) ∧
    (rc ≠ 0 →
      (execute_python_code code env 50 true).1.success = false ∧
      (execute_python_code code env 50 true).1.error_type = some "execution".data ∧
      containsSub (intToStr rc)
        (execute_python_code code env 50 true).1.error = true ∧
      containsSub (pstrip err)
        (execute_python_code code env 50 true).1.error = true) := by
  have hexec := execute_eq_completed code env 50 true rc out err n hcode htemp hrun
  rw [hexec]
  obtain ⟨hs, ho, het, hrc⟩ :=
    applyCleanup_preserves (classifyRun rc out err true env.elapsed) env
  refine ⟨?_, ?_, ?_⟩
  · intro h0 hns
    subst h0
    rw [hs, ho, het, classifyRun_zero_nowarn out err true env.elapsed hns]
    exact ⟨rfl, rfl, rfl⟩
  · intro h0 hws
    subst h0
    rw [hs, ho, het, classifyRun_zero_warn out err env.elapsed hws]
    exact ⟨rfl, rfl, rfl⟩
  · intro hnz
    obtain ⟨sfx, hsf⟩ :=
      applyCleanup_error_append (classifyRun rc out err true env.elapsed) env
    rw [hs, het, hsf, classifyRun_nonzero rc out err true env.elapsed hnz]
    refine ⟨rfl, rfl, ?_, ?_⟩
    · show containsSub (intToStr rc)
        (("Execution failed (return code: ".data ++ intToStr rc ++ ")\n".data
          ++ pstrip (if err ≠ [] then err else "Unknown execution error".data))
          ++ sfx) = true
      have hform : ("Execution failed (return code: ".data ++ intToStr rc
          ++ ")\n".data
          ++ pstrip (if err ≠ [] then err else "Unknown execution error".data))
          ++ sfx =
          "Execution failed (return code: ".data ++ (intToStr rc ++ (")\n".data
            ++ pstrip (if err ≠ [] then err else "Unknown execution error".data)
            ++ sfx)) := by
        simp [List.append_assoc]
      rw [hform]
      exact containsSub_sandwich _ _ _
    · show containsSub (pstrip err)
        (("Execution failed (return code: ".data ++ intToStr rc ++ ")\n".data
          ++ pstrip (if err ≠ [] then err else "Unknown execution error".data))
          ++ sfx) = true
      by_cases he : err ≠ []
      · have hform : ("Execution failed (return code: ".data ++ intToStr rc
            ++ ")\n".data
            ++ pstrip (if err ≠ [] then err else "Unknown execution error".data))
            ++ sfx =
            ("Execution failed (return code: ".data ++ intToStr rc ++ ")\n".data)
              ++ (pstrip err ++ sfx) := by
          rw [if_pos he]
          simp [List.append_assoc]
        rw [hform]
        exact containsSub_sandwich _ _ _
      · simp only [ne_eq, not_not] at he
        subst he
        show containsSub [] _ = true
        exact firstOccur_isSome_of_prefixOf [] _ (by simp [List.isPrefixOf])

/-- C2 (witness): concrete classifications — a clean zero exit reproduces
stdout, and a non-zero exit's message contains the exit code. -/
theorem c2_witness :
    (execute_python_code "print(1)".data
      ⟨TempOutcome.ok "t".data, RunOutcome.completed 0 "1\n".data [],
        true, none, 0⟩ 50 true).1.output = "1\n".data ∧
    containsSub (intToStr 1)
      (execute_python_code "1/0".data
        ⟨TempOutcome.ok "t".data, RunOutcome.completed 1 [] "boom".data,
          true, none, 0⟩ 50 true).1.error = true := by
  constructor
  · exact ((c2_executor_classification "print(1)".data
      ⟨TempOutcome.ok "t".data, RunOutcome.completed 0 "1\n".data [],
        true, none, 0⟩ "t".data 0 "1\n".data [] (by decide) rfl rfl).1
      rfl (by decide)).2.2
  · exact ((c2_executor_classification "1/0".data
      ⟨TempOutcome.ok "t".data, RunOutcome.completed 1 [] "boom".data,
        true, none, 0⟩ "t".data 1 [] "boom".data (by decide) rfl rfl).2.2
      (by decide)).2.2.1

/-- C3: when the wall-clock timeout fires the result reports
`success = false`, `error_type = "timeout"` and `return_code = -1`; and on
every exit path the temporary file is gone afterwards whenever its
deletion does not itself fail, while a deletion failure leaves the file,
is not raised, and appends a cleanup warning to the result's error
text. -/
theorem c3_timeout_and_cleanup (code : PyStr) (env : ExecEnv) (n : PyStr) :
    (pstrip code ≠ [] → env.temp = TempOutcome.ok n →
      env.run = RunOutcome.raised PyExn.timeoutExpired →
      (execute_python_code code env 50 true).1.success = false ∧
      (execute_python_code code env 50 true).1.error_type = some "timeout".data ∧
      (execute_python_code code env 50 true).1.return_code = some (-1)) ∧
    (env.unlink = none → (execute_python_code code env 50 true).2 = false) ∧
    ((execute_python_code code env 50 true).2 = true →
      ∃ m, env.unlink = some m ∧
        containsSub "Cleanup warning: Could not delete temp file: ".data
          (execute_python_code code env 50 true).1.error = true) := by
  refine ⟨?_, ?_, ?_⟩
  · intro hcode htemp hrun
    rw [execute_eq_raised code env 50 true PyExn.timeoutExpired n hcode htemp hrun]
    obtain ⟨hs, ho, het, hrc⟩ :=
      applyCleanup_preserves (handleExn PyExn.timeoutExpired 50 env.elapsed) env
    rw [hs, het, hrc]
    exact ⟨rfl, rfl, rfl⟩
  · intro hu
    by_cases hcode : pstrip code = []
    · rw [execute_eq_blank code env 50 true hcode]
    · cases ht : env.temp with
      | notCreated e => rw [execute_eq_notCreated code env 50 true e hcode ht]
      | writeFailed nm e =>
        rw [execute_eq_writeFailed code env 50 true nm e hcode ht]
        exact applyCleanup_snd_false _ _ hu
      | ok nm =>
        cases hr : env.run with
        | completed rc out err =>
          rw [execute_eq_completed code env 50 true rc out err nm hcode ht hr]
          exact applyCleanup_snd_false _ _ hu
        | raised e =>
          rw [execute_eq_raised code env 50 true e nm hcode ht hr]
          exact applyCleanup_snd_false _ _ hu
  · intro h2
    by_cases hcode : pstrip code = []
    · rw [execute_eq_blank code env 50 true hcode] at h2
      simp at h2
    · cases ht : env.temp with
      | notCreated e =>
        rw [execute_eq_notCreated code env 50 true e hcode ht] at h2
        simp at h2
      | writeFailed nm e =>
        rw [execute_eq_writeFailed code env 50 true nm e hcode ht] at h2 ⊢
        exact applyCleanup_snd_true _ _ h2
      | ok nm =>
        cases hr : env.run with
        | completed rc out err =>
          rw [execute_eq_completed code env 50 true rc out err nm hcode ht hr] at h2 ⊢
          exact applyCleanup_snd_true _ _ h2
        | raised e =>
          rw [execute_eq_raised code env 50 true e nm hcode ht hr] at h2 ⊢
          exact applyCleanup_snd_true _ _ h2

/-- C3 (witness): a concrete timed-out run is classified as a timeout and
leaves no temporary file; a concrete failed deletion is reported in the
error text. -/
theorem c3_witness :
    ((execute_python_code "import time".data
      ⟨TempOutcome.ok "t".data, RunOutcome.raised PyExn.timeoutExpired,
        true, none, 7⟩ 50 true).1.error_type = some "timeout".data ∧
     (execute_python_code "import time".data
      ⟨TempOutcome.ok "t".data, RunOutcome.raised PyExn.timeoutExpired,
        true, none, 7⟩ 50 true).2 = false) ∧
    ∃ m, (⟨TempOutcome.ok "t".data, RunOutcome.raised PyExn.timeoutExpired,
        true, some "busy".data, 7⟩ : ExecEnv).unlink = some m ∧
      containsSub "Cleanup warning: Could not delete temp file: ".data
        (execute_python_code "import time".data
          ⟨TempOutcome.ok "t".data, RunOutcome.raised PyExn.timeoutExpired,
            true, some "busy".data, 7⟩ 50 true).1.error = true := by
  constructor
  · constructor
    · exact ((c3_timeout_and_cleanup "import time".data
        ⟨TempOutcome.ok "t".data, RunOutcome.raised PyExn.timeoutExpired,
          true, none, 7⟩ "t".data).1 (by decide) rfl rfl).2.1
    · exact (c3_timeout_and_cleanup "import time".data
        ⟨TempOutcome.ok "t".data, RunOutcome.raised PyExn.timeoutExpired,
          true, none, 7⟩ "t".data).2.1 rfl
  · exact (c3_timeout_and_cleanup "import time".data
      ⟨TempOutcome.ok "t".data, RunOutcome.raised PyExn.timeoutExpired,
        true, some "busy".data, 7⟩ "t".data).2.2 (by decide)

/-- C9 (counterexample): the input-validation short-circuit returns the
freshly initialized record whose `return_code` is still `None`, not an
integer, contradicting the claim that the exit code is an integer on
every path including this one. -/
theorem c9_counterexample :
    (execute_python_code []
      ⟨TempOutcome.ok "t".data, RunOutcome.completed 0 [] [],
        true, none, 0⟩ 50 true).1.return_code = none := by
  decide

/-- C9: on every path that passes input validation (non-blank code) the
returned `return_code` is an integer — the subprocess's exit status on
completion and `-1` on every exception path; only the validation
short-circuit leaves it `None`. -/
theorem c9_return_code_integer (code : PyStr) (env : ExecEnv) (timeout : Int)
    (cap : Bool) (h : pstrip code ≠ []) :
    ((execute_python_code code env timeout cap).1.return_code).isSome = true := by
  cases ht : env.temp with
  | notCreated e =>
    rw [execute_eq_notCreated code env timeout cap e h ht]
    show ((handleExn e timeout env.elapsed).return_code).isSome = true
    rw [handleExn_return_code]
    rfl
  | writeFailed nm e =>
    rw [execute_eq_writeFailed code env timeout cap nm e h ht]
    rw [(applyCleanup_preserves (handleExn e timeout env.elapsed) env).2.2.2]
    rw [handleExn_return_code]
    rfl
  | ok nm =>
    cases hr : env.run with
    | completed rc out err =>
      rw [execute_eq_completed code env timeout cap rc out err nm h ht hr]
      rw [(applyCleanup_preserves (classifyRun rc out err cap env.elapsed) env).2.2.2]
      rw [classifyRun_return_code]
      rfl
    | raised e =>
      rw [execute_eq_raised code env timeout cap e nm h ht hr]
      rw [(applyCleanup_preserves (handleExn e timeout env.elapsed) env).2.2.2]
      rw [handleExn_return_code]
      rfl

/-- C9 (witness): a concrete non-blank run yields an integer exit code. -/
theorem c9_witness :
    ((execute_python_code "print(1)".data
      ⟨TempOutcome.ok "t".data, RunOutcome.completed 0 "1\n".data [],
        true, none, 0⟩ 50 true).1.return_code).isSome = true :=
  c9_return_code_integer "print(1)".data
    ⟨TempOutcome.ok "t".data, RunOutcome.completed 0 "1\n".data [],
      true, none, 0⟩ 50 true (by decide)

/-! ## Exception propagation (C8) -/

theorem executeE_agrees (code : PyStr) (env : ExecEnv) (timeout : Int) (cap : Bool) :
    execute_python_codeE code env timeout cap =
      Except.ok (execute_python_code code env timeout cap) := by
  by_cases hc : pstrip code = []
  · simp only [execute_python_codeE, execute_python_code, if_pos hc]
  · cases ht : env.temp with
    | notCreated e =>
      simp only [execute_python_codeE, execute_python_code, if_neg hc, ht]
    | writeFailed nm e =>
      simp only [execute_python_codeE, execute_python_code, if_neg hc, ht]
    | ok nm =>
      cases hr : env.run with
      | completed rc out err =>
        simp only [execute_python_codeE, execute_python_code, if_neg hc, ht, hr]
      | raised e =>
        simp only [execute_python_codeE, execute_python_code, if_neg hc, ht, hr]

theorem read_requirementsE_ok (renv : ReadOutcome)
    (h : ∀ p m, renv ≠ ReadOutcome.decodeFault p m) :
    ∃ v, read_requirementsE renv = Except.ok v := by
  cases renv with
  | ok c => exact ⟨_, rfl⟩
  | absent => exact ⟨_, rfl⟩
  | ioFault sofar m => exact ⟨_, rfl⟩
  | decodeFault sofar m => exact absurd rfl (h sofar m)

theorem append_to_requirementsE_ok (missing : List PyStr) (wenv : WriteOutcome)
    (h : ∀ m, wenv ≠ WriteOutcome.encodeFault m) :
    ∃ b, append_to_requirementsE missing wenv = Except.ok b := by
  by_cases hm : missing = []
  · exact ⟨true, by unfold append_to_requirementsE; rw [if_pos hm]⟩
  · cases wenv with
    | ok => exact ⟨true, by unfold append_to_requirementsE; rw [if_neg hm]⟩
    | ioFault m => exact ⟨false, by unfold append_to_requirementsE; rw [if_neg hm]⟩
    | encodeFault m => exact absurd rfl (h m)

theorem install_packagesE_ok (packages : List PyStr) (ienv : InstallOutcome) :
    ∃ b, install_packagesE packages ienv = Except.ok b := by
  by_cases hp : packages = []
  · exact ⟨true, by unfold install_packagesE; rw [if_pos hp]⟩
  · cases ienv with
    | ok => exact ⟨true, by unfold install_packagesE; rw [if_neg hp]⟩
    | calledProcessFault rc m =>
      exact ⟨false, by unfold install_packagesE; rw [if_neg hp]⟩
    | otherFault m => exact ⟨false, by unfold install_packagesE; rw [if_neg hp]⟩

/-- C8 (counterexample): a manifest file whose bytes do not decode as
UTF-8 raises a `UnicodeDecodeError`, which `except IOError` does not
catch, so `read_requirements` — and `manage_dependencies` through it —
lets the exception escape the contract boundary instead of returning a
structured result. -/
theorem c8_counterexample :
    read_requirementsE (ReadOutcome.decodeFault [] "invalid start byte".data) =
      Except.error (PyExn.decodeError "invalid start byte".data) ∧
    manage_dependenciesE ["numpy".data]
      (ReadOutcome.decodeFault [] "invalid start byte".data)
      WriteOutcome.ok InstallOutcome.ok true =
      Except.error (PyExn.decodeError "invalid start byte".data) := by
  exact ⟨rfl, rfl⟩

/-- C8: the executor never lets an exception escape — its translated
`try/except/finally` structure always produces the result record — and
every dependency-reconciler function returns a structured value provided
the manifest file operations fail only within the caught `IOError` class;
codec failures (the decode/encode faults) are the one uncaught escape
hatch, exhibited by the counterexample. -/
theorem c8_no_raise :
    (∀ (code : PyStr) (env : ExecEnv) (timeout : Int) (cap : Bool),
      execute_python_codeE code env timeout cap =
        Except.ok (execute_python_code code env timeout cap)) ∧
    (∀ renv : ReadOutcome, (∀ p m, renv ≠ ReadOutcome.decodeFault p m) →
      ∃ v, read_requirementsE renv = Except.ok v) ∧
    (∀ (deps : List PyStr) (renv : ReadOutcome),
      (∀ p m, renv ≠ ReadOutcome.decodeFault p m) →
      ∃ v, find_missing_dependenciesE deps renv = Except.ok v) ∧
    (∀ (missing : List PyStr) (wenv : WriteOutcome),
      (∀ m, wenv ≠ WriteOutcome.encodeFault m) →
      ∃ b, append_to_requirementsE missing wenv = Except.ok b) ∧
    (∀ (packages : List PyStr) (ienv : InstallOutcome),
      ∃ b, install_packagesE packages ienv = Except.ok b) ∧
    (∀ (deps : List PyStr) (renv : ReadOutcome) (wenv : WriteOutcome)
        (ienv : InstallOutcome) (im : Bool),
      (∀ p m, renv ≠ ReadOutcome.decodeFault p m) →
      (∀ m, wenv ≠ WriteOutcome.encodeFault m) →
      ∃ b, manage_dependenciesE deps renv wenv ienv im = Except.ok b) := by
  refine ⟨executeE_agrees, read_requirementsE_ok, ?_, append_to_requirementsE_ok,
    install_packagesE_ok, ?_⟩
  · intro deps renv hdec
    obtain ⟨v, hv⟩ := read_requirementsE_ok renv hdec
    exact ⟨findMissingAux v deps, by unfold find_missing_dependenciesE; rw [hv]⟩
  · intro deps renv wenv ienv im hdec henc
    obtain ⟨v, hv⟩ := read_requirementsE_ok renv hdec
    have hfind : find_missing_dependenciesE deps renv =
        Except.ok (findMissingAux v deps) := by
      unfold find_missing_dependenciesE
      rw [hv]
    have hmanage : manage_dependenciesE deps renv wenv ienv im =
        (if findMissingAux v deps = [] then Except.ok true
         else
           match append_to_requirementsE (findMissingAux v deps) wenv with
           | Except.error e => Except.error e
           | Except.ok false => Except.ok false
           | Except.ok true =>
             if im = true then install_packagesE (findMissingAux v deps) ienv
             else Except.ok true) := by
      unfold manage_dependenciesE
      rw [hfind]
    rw [hmanage]
    by_cases hm : findMissingAux v deps = []
    · exact ⟨true, by rw [if_pos hm]⟩
    · rw [if_neg hm]
      obtain ⟨b, hb⟩ := append_to_requirementsE_ok (findMissingAux v deps) wenv henc
      cases b with
      | false => exact ⟨false, by rw [hb]⟩
      | true =>
        have step : (match append_to_requirementsE (findMissingAux v deps) wenv with
            | Except.error e => Except.error e
            | Except.ok false => Except.ok false
            | Except.ok true =>
              if im = true then install_packagesE (findMissingAux v deps) ienv
              else Except.ok true) =
            (if im = true then install_packagesE (findMissingAux v deps) ienv
             else Except.ok true) := by
          rw [hb]
        rw [step]
        by_cases him : im = true
        · rw [if_pos him]
          exact install_packagesE_ok _ _
        · rw [if_neg him]
          exact ⟨true, rfl⟩

/-- C8 (witness): concrete no-raise instances — an executor run, a
partially read manifest hitting an `IOError`, and a full
`manage_dependencies` round trip. -/
theorem c8_witness :
    execute_python_codeE "print(1)".data
      ⟨TempOutcome.ok "t".data, RunOutcome.completed 0 "1\n".data [],
        true, none, 0⟩ 50 true =
      Except.ok (execute_python_code "print(1)".data
        ⟨TempOutcome.ok "t".data, RunOutcome.completed 0 "1\n".data [],
          true, none, 0⟩ 50 true) ∧
    (∃ v, read_requirementsE (ReadOutcome.ioFault "numpy\n".data "denied".data) =
      Except.ok v) ∧
    (∃ b, manage_dependenciesE ["pandas".data] (ReadOutcome.ok "numpy\n".data)
      WriteOutcome.ok InstallOutcome.ok true = Except.ok b) := by
  refine ⟨c8_no_raise.1 _ _ 50 true, ?_, ?_⟩
  · exact c8_no_raise.2.1 _ (by intro p m h; exact ReadOutcome.noConfusion h)
  · exact c8_no_raise.2.2.2.2.2 ["pandas".data] _ _ _ true
      (by intro p m h; exact ReadOutcome.noConfusion h)
      (by intro m h; exact WriteOutcome.noConfusion h)

/-! ## The retry orchestrator (C1, C5) -/

/-- C1: the orchestrated request whose very first execution attempt
succeeds.  The generated block parses, the execution environment reports a
clean zero exit with output `"1\n"` — yet `handle_execute_code_class`
falls off the end of the function and returns Python's implicit `None`
instead of that output, because its final `if` only handles the failure
branch.  (Independently, the source passes the dependency list as
`execute_python_code`'s `timeout` argument, so in the unmodelled runtime
this first execution cannot even succeed.) -/
theorem c1_first_attempt_success_returns_none :
    ((execute_python_code
      (extract_code_and_dependencies "```code\nprint(1)\n```".data).code
      ⟨TempOutcome.ok "t".data, RunOutcome.completed 0 "1\n".data [],
        true, none, 0⟩ 50 true).1).success = true ∧
    ((execute_python_code
      (extract_code_and_dependencies "```code\nprint(1)\n```".data).code
      ⟨TempOutcome.ok "t".data, RunOutcome.completed 0 "1\n".data [],
        true, none, 0⟩ 50 true).1).output = "1\n".data ∧
    handle_execute_code_class
      ⟨fun _ => "```code\nprint(1)\n```".data,
       fun _ => ⟨TempOutcome.ok "t".data, RunOutcome.completed 0 "1\n".data [],
         true, none, 0⟩⟩
      "q".data = none := by
  decide

theorem retry_step (oe : OrchEnv) (q c e : PyStr) (t : Nat) (ht : t < 6)
    (hp : (extract_code_and_dependencies (oe.response t)).success = true)
    (hx : ((execute_python_code (extract_code_and_dependencies (oe.response t)).code
      (oe.exec t) 50 true).1).success = false) :
    retry oe q c e t 6 =
      retry oe q (extract_code_and_dependencies (oe.response t)).code
        ((execute_python_code (extract_code_and_dependencies (oe.response t)).code
          (oe.exec t) 50 true).1).error (t + 1) 6 := by
  rw [retry.eq_def]
  rw [if_neg (show ¬ (6 ≤ t) from by omega)]
  simp only [hp, hx, Bool.true_eq_false, Bool.false_eq_true, if_false]

/-- C5: a permanently failing task.  When every attempt from trial `t` up
to the limit parses successfully yet fails execution, the recursion
terminates at exactly the configured maximum of 6 trials (the Lean
definition is total, mirroring the strictly increasing trial counter) and
returns the terminal message carrying the final attempt's error text —
a value, not an exception. -/
theorem c5_retry_exhaustion (oe : OrchEnv) (question code error_msg : PyStr)
    (t : Nat) (ht : t < 6)
    (hfail : ∀ k, t ≤ k → k < 6 →
      (extract_code_and_dependencies (oe.response k)).success = true ∧
      ((execute_python_code (extract_code_and_dependencies (oe.response k)).code
        (oe.exec k) 50 true).1).success = false) :
    retry oe question code error_msg t 6 =
      "Max retries reached. Last error: ".data ++
        ((execute_python_code (extract_code_and_dependencies (oe.response 5)).code
          (oe.exec 5) 50 true).1).error := by
  have main : ∀ k : Nat, ∀ (t' : Nat) (c e : PyStr), t' + k + 1 = 6 →
      (∀ j, t' ≤ j → j < 6 →
        (extract_code_and_dependencies (oe.response j)).success = true ∧
        ((execute_python_code (extract_code_and_dependencies (oe.response j)).code
          (oe.exec j) 50 true).1).success = false) →
      retry oe question c e t' 6 =
        "Max retries reached. Last error: ".data ++
          ((execute_python_code (extract_code_and_dependencies (oe.response 5)).code
            (oe.exec 5) 50 true).1).error := by
    intro k
    induction k with
    | zero =>
      intro t' c e hteq hf
      have ht5 : t' = 5 := by omega
      subst ht5
      have h5 := hf 5 (Nat.le_refl 5) (by omega)
      rw [retry_step oe question c e 5 (by omega) h5.1 h5.2]
      rw [retry.eq_def]
      rw [if_pos (show 6 ≤ 5 + 1 from by omega)]
    | succ k ih =>
      intro t' c e hteq hf
      have h := hf t' (Nat.le_refl t') (by omega)
      rw [retry_step oe question c e t' (by omega) h.1 h.2]
      exact ih (t' + 1) _ _ (by omega) (fun j hj1 hj2 => hf j (by omega) hj2)
  exact main (5 - t) t code error_msg (by omega) hfail

/-- C5 (witness): a concrete permanently failing environment entered at
trial 2 (as `handle_execute_code_class` does) exhausts the six-trial
budget and surfaces the last execution error. -/
theorem c5_witness :
    retry
      ⟨fun _ => "```code\n1/0\n```".data,
       fun _ => ⟨TempOutcome.ok "t".data, RunOutcome.completed 1 [] "boom".data,
         true, none, 0⟩⟩
      "q".data "c".data "e".data 2 6 =
      "Max retries reached. Last error: ".data ++
        ((execute_python_code
          (extract_code_and_dependencies "```code\n1/0\n```".data).code
          ⟨TempOutcome.ok "t".data, RunOutcome.completed 1 [] "boom".data,
            true, none, 0⟩ 50 true).1).error := by
  apply c5_retry_exhaustion
    ⟨fun _ => "```code\n1/0\n```".data,
     fun _ => ⟨TempOutcome.ok "t".data, RunOutcome.completed 1 [] "boom".data,
       true, none, 0⟩⟩
    "q".data "c".data "e".data 2 (by omega)
  intro k _ _
  constructor
  · show (extract_code_and_dependencies "```code\n1/0\n```".data).success = true
    decide
  · show ((execute_python_code
      (extract_code_and_dependencies "```code\n1/0\n```".data).code
      ⟨TempOutcome.ok "t".data, RunOutcome.completed 1 [] "boom".data,
        true, none, 0⟩ 50 true).1).success = false
    decide
